import Mathlib

/-!
Formal model of the karmalentil polynomial-optics core.

The definitions below are shallow embeddings of the Python source:

* `src/python/potk/simple_raytracer.py` — `SimpleLensElement`, `SimpleRaytracer`
  (per-surface sequential trace, Snell refraction, vignetting);
* `src/python/potk/polynomial_fitter_numpy.py` — `NumpyPolyFitter`
  (sample generation, basis features, least-squares fit, evaluation);
* `src/python/potk/poly_fitter.py` — `PolyFitter.optimize_degree` and
  `fit_polynomial_from_data`.

Floating-point values are modelled as real numbers (`ℝ`); `np.sqrt`,
`np.cos`, `np.sin` as `Real.sqrt`, `Real.cos`, `Real.sin`.  The Python
functions signal a per-ray trace failure by returning `(None, None)`
(`NaN` rows in batch output); this is modelled by `Option`/`Except`.
An instrumented variant (`traceRayTagged`) additionally records at which
of the five `return None, None` sites of `trace_ray` the failure
occurred; the un-instrumented `traceRay` is its erasure and corresponds
exactly to what the Python caller can observe.
-/

/-- A 3-vector of reals, modelling the `np.ndarray` 3-vectors of the tracer. -/
structure Vec3 where
  x : ℝ
  y : ℝ
  z : ℝ

noncomputable instance : Add Vec3 :=
  ⟨fun a b => ⟨a.x + b.x, a.y + b.y, a.z + b.z⟩⟩

noncomputable instance : Neg Vec3 :=
  ⟨fun a => ⟨-a.x, -a.y, -a.z⟩⟩

noncomputable instance : SMul ℝ Vec3 :=
  ⟨fun t a => ⟨t * a.x, t * a.y, t * a.z⟩⟩

/-- `np.dot` on 3-vectors. -/
noncomputable def dot3 (a b : Vec3) : ℝ :=
  a.x * b.x + a.y * b.y + a.z * b.z

/-- `np.linalg.norm` on 3-vectors. -/
noncomputable def norm3 (a : Vec3) : ℝ :=
  Real.sqrt (dot3 a a)

/-- `SimpleLensElement` (simple_raytracer.py, lines 17-45): one optical
surface with signed curvature radius, axial thickness to the next surface,
material name and clear-aperture diameter. -/
structure LensElement where
  radius : ℝ
  thickness : ℝ
  material : String
  diameter : ℝ

/-- The `_index_map` dictionary of `SimpleLensElement.__init__` with its
`.get(material, 1.0)` default (lines 37-45 and 57). -/
def indexMap (material : String) : ℝ :=
  match material with
  | "air" => 1.0
  | "N-BK7" => 1.5168
  | "N-SK16" => 1.6204
  | "N-LAK21" => 1.6405
  | "SF5" => 1.6727
  | "N-SF6" => 1.8052
  | "N-LASF9" => 1.8501
  | _ => 1.0

/-- `SimpleLensElement.get_index` (lines 47-66): base index from the
material table, adjusted by the Cauchy-style dispersion term
`(base-1)*0.01*((550/wavelength)^2 - 1)` when `base > 1` and the
wavelength is not exactly 550nm. -/
noncomputable def getIndex (material : String) (wavelength : ℝ) : ℝ :=
  let base := indexMap material
  if 1 < base ∧ wavelength ≠ 550 then
    base + (base - 1) * 0.01 * ((550 / wavelength) ^ 2 - 1)
  else
    base

/-- The five `return None, None` sites of `SimpleRaytracer.trace_ray`
(simple_raytracer.py lines 131, 135, 143, 156, 188).  The Python code
returns the same undifferentiated `(None, None)` at each; the tag is
instrumentation recording which site fired. -/
inductive TraceFailure where
  | parallelToAxis
  | surfaceBehindRay
  | vignetted
  | outsideSphere
  | totalInternalReflection
deriving DecidableEq

/-- The loop state of `trace_ray`: current position, current (normalized)
direction, refractive index of the current medium, and the cumulative
optical-axis position `z_vertex` of the next surface's vertex. -/
structure TraceState where
  pos : Vec3
  dir : Vec3
  currentIndex : ℝ
  zVertex : ℝ

/-- `SimpleRaytracer._refract` (lines 266-294): Snell refraction.
`cos_i = -dot(incident, normal)`, flipped together with the normal when
negative; `k = 1 - eta^2 (1 - cos_i^2)`; `None` when `k < 0` (total
internal reflection), otherwise the normalized refracted direction. -/
noncomputable def refract (incident normal : Vec3) (n1 n2 : ℝ) : Option Vec3 :=
  let c := -(dot3 incident normal)
  let cosI := if c < 0 then -c else c
  let n := if c < 0 then -normal else normal
  let eta := n1 / n2
  let k := 1 - eta ^ 2 * (1 - cosI ^ 2)
  if k < 0 then
    none
  else
    let refracted := eta • incident + (eta * cosI - Real.sqrt k) • n
    some ((1 / norm3 refracted) • refracted)

/-- One iteration of the surface loop of `SimpleRaytracer.trace_ray`
(lines 128-193), for a single element, with each `return None, None`
site tagged.  The ray is propagated flat to the vertex plane, checked
against the clear aperture there, then (for a curved surface) propagated
to the sag-corrected surface and refracted. -/
noncomputable def traceStep (element : LensElement) (wavelength : ℝ) (s : TraceState) :
    Except TraceFailure TraceState :=
  if |s.dir.z| < 1e-10 then
    .error .parallelToAxis
  else
    let tToVertex := (s.zVertex - s.pos.z) / s.dir.z
    if tToVertex < -1e-6 then
      .error .surfaceBehindRay
    else
      let posAtVertex := s.pos + tToVertex • s.dir
      let r := Real.sqrt (posAtVertex.x ^ 2 + posAtVertex.y ^ 2)
      if element.diameter / 2 < r then
        .error .vignetted
      else
        let refractAt : Vec3 → Vec3 → Except TraceFailure TraceState := fun pos normal =>
          let nextIndex := getIndex element.material wavelength
          match refract s.dir normal s.currentIndex nextIndex with
          | none => .error .totalInternalReflection
          | some d => .ok ⟨pos, d, nextIndex, s.zVertex + element.thickness⟩
        if 1e-6 < |element.radius| then
          let rSqr := r * r
          if rSqr < element.radius ^ 2 then
            let sag :=
              if 0 < element.radius then
                element.radius - Real.sqrt (element.radius ^ 2 - rSqr)
              else
                -|element.radius| + Real.sqrt (element.radius ^ 2 - rSqr)
            let zSurface := s.zVertex + sag
            let tToSurface := (zSurface - s.pos.z) / s.dir.z
            let pos := s.pos + tToSurface • s.dir
            let nvec : Vec3 := ⟨pos.x, pos.y, sag⟩
            let normalLen := norm3 nvec
            let normal :=
              if 1e-10 < normalLen then
                (if element.radius < 0 then -((1 / normalLen) • nvec) else (1 / normalLen) • nvec)
              else
                (⟨0, 0, 1⟩ : Vec3)
            refractAt pos normal
          else
            .error .outsideSphere
        else
          refractAt posAtVertex ⟨0, 0, 1⟩

/-- The surface loop of `trace_ray`, folding `traceStep` over the element
list and returning the final position and direction on success. -/
noncomputable def traceRayAux (wavelength : ℝ) :
    List LensElement → TraceState → Except TraceFailure (Vec3 × Vec3)
  | [], s => .ok (s.pos, s.dir)
  | e :: rest, s =>
    match traceStep e wavelength s with
    | .error f => .error f
    | .ok s' => traceRayAux wavelength rest s'

/-- `SimpleRaytracer.trace_ray` (lines 107-195), instrumented with failure
tags.  The initial state normalizes the direction (line 122), starts in
air (`current_index = 1.0`) with `z_vertex = 0`. -/
noncomputable def traceRayTagged (elements : List LensElement) (origin dir : Vec3)
    (wavelength : ℝ) : Except TraceFailure (Vec3 × Vec3) :=
  traceRayAux wavelength elements ⟨origin, (1 / norm3 dir) • dir, 1, 0⟩

/-- `SimpleRaytracer.trace_ray` as the Python caller observes it: the exit
position/direction pair, or `none` (the `(None, None)` return) on any
failure.  This is the tag-erasure of `traceRayTagged`. -/
noncomputable def traceRay (elements : List LensElement) (origin dir : Vec3)
    (wavelength : ℝ) : Option (Vec3 × Vec3) :=
  (traceRayTagged elements origin dir wavelength).toOption

/-- `SimpleRaytracer.trace_rays_batch` (lines 197-225): each ray traced
independently in input order; a failed ray's output row (`NaN` marks in
the Python arrays) is modelled as `none`. -/
noncomputable def traceRaysBatch (elements : List LensElement)
    (rays : List (Vec3 × Vec3)) (wavelength : ℝ) : List (Option (Vec3 × Vec3)) :=
  rays.map fun ray => traceRay elements ray.1 ray.2 wavelength

/-- `num_coeffs` as computed in `NumpyPolyFitter.__init__` (line 35):
`(degree + 1) * (degree + 2) // 2`. -/
def numCoeffs (degree : ℕ) : ℕ :=
  (degree + 1) * (degree + 2) / 2

/-- The monomial exponent pairs `(i, j)` of `x^i * y^j` in the order the
double loop of `NumpyPolyFitter._build_polynomial_features` appends them
(polynomial_fitter_numpy.py lines 314-317): outer loop over total degree
`0..degree`, inner loop `i = 0..total_deg` with `j = total_deg - i`. -/
def termExponents (degree : ℕ) : List (ℕ × ℕ) :=
  (List.range (degree + 1)).flatMap fun totalDeg =>
    (List.range (totalDeg + 1)).map fun i => (i, totalDeg - i)

/-- The monomial ordering claimed by the specification: within each total
degree, by decreasing power of the first input dimension, i.e. the
degree-`d` block is `(d,0), (d-1,1), ..., (0,d)`. -/
def termExponentsSpecOrder (degree : ℕ) : List (ℕ × ℕ) :=
  (List.range (degree + 1)).flatMap fun totalDeg =>
    (List.range (totalDeg + 1)).map fun j => (totalDeg - j, j)

/-- One row (one sample) of the feature matrix produced by
`_build_polynomial_features`: the monomials `x^i * y^j` in `termExponents`
order, evaluated at the sample's sensor coordinates. -/
noncomputable def featuresRow (x y : ℝ) (degree : ℕ) : List ℝ :=
  (termExponents degree).map fun p => x ^ p.1 * y ^ p.2

/-- `NumpyPolyFitter._build_polynomial_features` (lines 294-319).  The
input rows are the 4-column samples `(sensor_x, sensor_y, aperture_x,
aperture_y)`; the code reads only columns 0 and 1 (`x = X[:, 0]`,
`y = X[:, 1]`).  The Python code builds the matrix column-by-column and
stacks along axis 1; this is its row-major transpose, one row per
sample. -/
noncomputable def buildPolynomialFeatures (X : List (ℝ × ℝ × ℝ × ℝ)) (degree : ℕ) :
    List (List ℝ) :=
  X.map fun srow => featuresRow srow.1 srow.2.1 degree

/-- The design-matrix row built by `fit_polynomial_from_data`
(poly_fitter.py lines 179-189): `A[:, idx] = x^i * y^(total_deg - i)`
filled by the same double loop, translated independently of
`termExponents` so that the agreement of the two orderings is a
provable statement. -/
noncomputable def fitDataDesignRow (x y : ℝ) (degree : ℕ) : List ℝ :=
  (List.range (degree + 1)).flatMap fun totalDeg =>
    (List.range (totalDeg + 1)).map fun i => x ^ i * y ^ (totalDeg - i)

/-- `np.concatenate([a, b], axis=1)` for two 2-column row lists of equal
length: the 4-column row list. -/
def concatCols (a b : List (ℝ × ℝ)) : List (ℝ × ℝ × ℝ × ℝ) :=
  (a.zip b).map fun p => (p.1.1, p.1.2, p.2.1, p.2.2)

/-- Dot product of a feature row with a coefficient vector
(`features @ coeffs`, one output entry). -/
noncomputable def dotList (a b : List ℝ) : ℝ :=
  ((a.zip b).map fun p => p.1 * p.2).sum

/-- `NumpyPolyFitter._fit_exit_pupil` (lines 243-267): concatenate sensor
and aperture columns, build the basis features, and solve least squares
for the exit x and y coordinates separately.  `np.linalg.lstsq` is
external library code and is passed in as the `lstsq` argument. -/
noncomputable def fitExitPupil (lstsq : List (List ℝ) → List ℝ → List ℝ) (degree : ℕ)
    (sensorPos aperturePos : List (ℝ × ℝ)) (exitPos : List Vec3) : List ℝ × List ℝ :=
  let X := concatCols sensorPos aperturePos
  let features := buildPolynomialFeatures X degree
  (lstsq features (exitPos.map Vec3.x), lstsq features (exitPos.map Vec3.y))

/-- `NumpyPolyFitter._fit_entrance_pupil` (lines 269-292): reverse
mapping, features built from exit positions and directions. -/
noncomputable def fitEntrancePupil (lstsq : List (List ℝ) → List ℝ → List ℝ) (degree : ℕ)
    (sensorPos : List (ℝ × ℝ)) (exitPos exitDir : List Vec3) : List ℝ × List ℝ :=
  let X := concatCols (exitPos.map fun p => (p.x, p.y)) (exitDir.map fun p => (p.x, p.y))
  let features := buildPolynomialFeatures X degree
  (lstsq features (sensorPos.map Prod.fst), lstsq features (sensorPos.map Prod.snd))

/-- `NumpyPolyFitter._evaluate_polynomial` (lines 321-344): build the same
features and form `features @ coeffs` for x and y; the z output is zero. -/
noncomputable def evaluatePolynomial (degree : ℕ) (sensorPos aperturePos : List (ℝ × ℝ))
    (coeffsX coeffsY : List ℝ) : List Vec3 :=
  let X := concatCols sensorPos aperturePos
  let features := buildPolynomialFeatures X degree
  features.map fun row => ⟨dotList row coeffsX, dotList row coeffsY, 0⟩

/-- The outcome of `NumpyPolyFitter.fit`: the valid-sample count, whether
the low-sample warning (line 75-76) fired, and the four coefficient
vectors. -/
structure FitResult where
  numValid : ℕ
  lowSampleWarning : Bool
  exitPupilX : List ℝ
  exitPupilY : List ℝ
  entrancePupilX : List ℝ
  entrancePupilY : List ℝ

/-- The post-trace part of `NumpyPolyFitter.fit` (lines 71-106): mask the
parallel sample arrays to the successfully traced rays (`NaN` rows of the
batch output modelled as `none`), compare the valid count against
`num_coeffs * 2` (which in the source only prints a warning), then fit
the exit- and entrance-pupil polynomials and return the coefficient
dictionary.  The result type is `Except` so that a fail-fast path would
be expressible; the source has none. -/
noncomputable def fitFromTrace (lstsq : List (List ℝ) → List ℝ → List ℝ) (degree : ℕ)
    (sensorPos aperturePos : List (ℝ × ℝ)) (traced : List (Option (Vec3 × Vec3))) :
    Except String FitResult :=
  let samples := (sensorPos.zip aperturePos).zip traced
  let valid := samples.filter fun srow => srow.2.isSome
  let numValid := valid.length
  let warning := decide (numValid < numCoeffs degree * 2)
  let sensor := valid.map fun srow => srow.1.1
  let aperture := valid.map fun srow => srow.1.2
  let exitP := valid.map fun srow => (srow.2.getD (⟨0, 0, 0⟩, ⟨0, 0, 0⟩)).1
  let exitD := valid.map fun srow => (srow.2.getD (⟨0, 0, 0⟩, ⟨0, 0, 0⟩)).2
  let ex := fitExitPupil lstsq degree sensor aperture exitP
  let en := fitEntrancePupil lstsq degree sensor exitP exitD
  .ok ⟨numValid, warning, ex.1, ex.2, en.1, en.2⟩

/-- `np.linspace a b n` with its default inclusive endpoint. -/
noncomputable def linspace (a b : ℝ) (n : ℕ) : List ℝ :=
  if n = 1 then [a]
  else (List.range n).map fun k => a + (b - a) * k / ((n : ℝ) - 1)

/-- The hidden state of numpy's global random generator, modelled as a
value stream and a consumption counter. -/
structure RngState where
  stream : ℕ → ℝ
  counter : ℕ

/-- `np.random.rand(n)` against the global generator: the next `n` stream
values, advancing the counter. -/
def npRand (n : ℕ) (g : RngState) : List ℝ × RngState :=
  ((List.range n).map fun k => g.stream (g.counter + k), ⟨g.stream, g.counter + n⟩)

/-- `NumpyPolyFitter._generate_sample_points` (lines 169-192): a
`grid_size = int(sqrt(n))` regular sensor grid from two `linspace`s via
`meshgrid` (row `i*g + j` holds `(u[j], v[i])`), and aperture positions
drawn from the global RNG as `r = sqrt(rand)`, `theta = 2*pi*rand`,
point `(r*cos theta, r*sin theta)`; both arrays truncated to
`num_samples` rows.  The only Python argument is `num_samples`; the RNG
state is the hidden global generator, made explicit here. -/
noncomputable def generateSamplePoints (numSamples : ℕ) (g : RngState) :
    (List (ℝ × ℝ) × List (ℝ × ℝ)) × RngState :=
  let gridSize := Nat.sqrt numSamples
  let u := linspace (-1) 1 gridSize
  let v := linspace (-1) 1 gridSize
  let sensorPositions := v.flatMap fun vi => u.map fun uj => (uj, vi)
  let rz := npRand sensorPositions.length g
  let tz := npRand sensorPositions.length rz.2
  let r := rz.1.map Real.sqrt
  let theta := tz.1.map fun t => 2 * Real.pi * t
  let aperturePositions := (r.zip theta).map fun p => (p.1 * Real.cos p.2, p.1 * Real.sin p.2)
  ((sensorPositions.take numSamples, aperturePositions.take numSamples), tz.2)

/-- The loop body of `PolyFitter.optimize_degree` (poly_fitter.py lines
106-124) over an explicit list of degrees still to try.  The accumulator
is `(best_degree, best_error)` with `none` standing for the initial
`float('inf')`; `err d` abstracts the `fit` + `validate` round at degree
`d` (in the source those consume the hidden global RNG).  The best pair
is updated on strict improvement, and the loop breaks as soon as
`err d <= target`. -/
def optimizeDegreeLoop (err : ℕ → ℚ) (target : ℚ) :
    List ℕ → ℕ × Option ℚ → ℕ × Option ℚ
  | [], best => best
  | d :: ds, best =>
    let e := err d
    let best' :=
      match best with
      | (_, none) => (d, some e)
      | (bd, some be) => if e < be then (d, some e) else (bd, some be)
    if e ≤ target then best' else optimizeDegreeLoop err target ds best'

/-- `range(min_degree, max_degree + 1)`. -/
def degreesList (minDegree maxDegree : ℕ) : List ℕ :=
  (List.range (maxDegree + 1 - minDegree)).map (· + minDegree)

/-- `PolyFitter.optimize_degree` (lines 88-125): iterate the degree from
`min_degree` to `max_degree`, track the best `(degree, error)` pair,
stop early once the target error is met, and return the bare pair — the
function's return type carries no achieved/not-achieved status. -/
def optimizeDegree (err : ℕ → ℚ) (minDegree maxDegree : ℕ) (target : ℚ) :
    ℕ × Option ℚ :=
  optimizeDegreeLoop err target (degreesList minDegree maxDegree) (minDegree, none)

/-- A flat all-air surface with a 50mm clear aperture, used as a concrete
test element. -/
noncomputable def flatElem : LensElement :=
  ⟨0, 5, "air", 50⟩

/-- A curved (R = 5mm) air surface with an 8.2mm clear aperture, used as a
concrete test element. -/
noncomputable def curvedElem : LensElement :=
  ⟨5, 10, "air", 41 / 5⟩

/-- A concrete stand-in for `np.linalg.lstsq`, returning a single zero
coefficient regardless of input. -/
noncomputable def lstsqZero : List (List ℝ) → List ℝ → List ℝ :=
  fun _ _ => [0]

/-- A concrete global-RNG state: the all-zero stream at counter 0. -/
noncomputable def rngZero : RngState :=
  ⟨fun _ => 0, 0⟩

/-- A concrete global-RNG state: first stream value `1/4`, rest zero,
counter 0. -/
noncomputable def rngQuarter : RngState :=
  ⟨fun n => if n = 0 then 1 / 4 else 0, 0⟩

theorem Vec3.add_def (a b : Vec3) : a + b = ⟨a.x + b.x, a.y + b.y, a.z + b.z⟩ := rfl

theorem Vec3.neg_def (a : Vec3) : -a = ⟨-a.x, -a.y, -a.z⟩ := rfl

theorem Vec3.smul_def (t : ℝ) (a : Vec3) : t • a = ⟨t * a.x, t * a.y, t * a.z⟩ := rfl

theorem norm3_unit_z : norm3 ⟨0, 0, 1⟩ = 1 := by
  norm_num [norm3, dot3, Real.sqrt_one]

theorem norm3_unit_x : norm3 ⟨1, 0, 0⟩ = 1 := by
  norm_num [norm3, dot3, Real.sqrt_one]

theorem norm3_dir345 : norm3 ⟨3 / 5, 0, 4 / 5⟩ = 1 := by
  rw [norm3, dot3]
  norm_num [Real.sqrt_one]

theorem normalize_of_norm_one (v : Vec3) (h : norm3 v = 1) : (1 / norm3 v) • v = v := by
  cases v with
  | mk x y z => rw [h]; simp [Vec3.smul_def]

/-- C7: tracing any ray with a unit-length direction through a raytracer
with an empty element list succeeds and returns the input position and
the input direction unchanged. -/
theorem trace_empty_identity (origin dir : Vec3) (wavelength : ℝ)
    (h : norm3 dir = 1) :
    traceRay [] origin dir wavelength = some (origin, dir) := by
  simp only [traceRay, traceRayTagged, traceRayAux, Except.toOption,
    normalize_of_norm_one dir h]

/-- Witness for `trace_empty_identity`: the concrete ray from `(1,2,3)`
along `(0,0,1)` (unit length) through zero elements. -/
theorem trace_empty_identity_witness :
    norm3 ⟨0, 0, 1⟩ = 1 ∧
      traceRay [] ⟨1, 2, 3⟩ ⟨0, 0, 1⟩ 550 = some (⟨1, 2, 3⟩, ⟨0, 0, 1⟩) :=
  ⟨norm3_unit_z, trace_empty_identity _ _ _ norm3_unit_z⟩

/-- C9: for every material whose base refractive index exceeds 1 and all
wavelengths `0 < w1 < w2`, `get_index` returns a strictly larger index at
the shorter wavelength `w1`. -/
theorem get_index_dispersion (material : String) (w1 w2 : ℝ)
    (h1 : 0 < w1) (h12 : w1 < w2) (hbase : 1 < indexMap material) :
    getIndex material w2 < getIndex material w1 := by
  have key : ∀ w : ℝ, 0 < w →
      getIndex material w
        = indexMap material + (indexMap material - 1) * 0.01 * ((550 / w) ^ 2 - 1) := by
    intro w hw
    by_cases hw550 : w = 550
    · subst hw550
      rw [getIndex, if_neg (by simp)]
      norm_num
    · rw [getIndex, if_pos ⟨hbase, hw550⟩]
  have h2 : 0 < w2 := h1.trans h12
  rw [key w1 h1, key w2 h2]
  have hc : (0 : ℝ) < (indexMap material - 1) * 0.01 :=
    mul_pos (by linarith) (by norm_num)
  have ha : 0 < 550 / w2 := by positivity
  have hlt : 550 / w2 < 550 / w1 := div_lt_div_of_pos_left (by norm_num) h1 h12
  have hsq : (550 / w2) ^ 2 < (550 / w1) ^ 2 := by nlinarith
  have := mul_lt_mul_of_pos_left (show (550 / w2) ^ 2 - 1 < (550 / w1) ^ 2 - 1 by linarith) hc
  linarith

/-- Witness for `get_index_dispersion`: N-BK7 at 400nm versus 700nm. -/
theorem get_index_dispersion_witness :
    (0 : ℝ) < 400 ∧ (400 : ℝ) < 700 ∧ 1 < indexMap "N-BK7" ∧
      getIndex "N-BK7" 700 < getIndex "N-BK7" 400 :=
  ⟨by norm_num, by norm_num, by norm_num [indexMap],
    get_index_dispersion _ _ _ (by norm_num) (by norm_num) (by norm_num [indexMap])⟩

theorem termExponents_succ (D : ℕ) :
    termExponents (D + 1)
      = termExponents D ++ (List.range (D + 2)).map fun i => (i, D + 1 - i) := by
  simp [termExponents, List.range_succ]

theorem mem_termExponents (D : ℕ) (p : ℕ × ℕ) :
    p ∈ termExponents D ↔ p.1 + p.2 ≤ D := by
  obtain ⟨a, b⟩ := p
  simp only [termExponents, List.mem_flatMap, List.mem_map, List.mem_range]
  constructor
  · rintro ⟨d, hd, i, hi, hp⟩
    obtain ⟨rfl, rfl⟩ := Prod.mk.injEq .. |>.mp hp
    omega
  · intro h
    refine ⟨a + b, by omega, a, by omega, ?_⟩
    have hb : a + b - a = b := by omega
    rw [hb]

theorem pairwise_termExponents (D : ℕ) :
    List.Pairwise
      (fun p q : ℕ × ℕ => p.1 + p.2 < q.1 + q.2 ∨ (p.1 + p.2 = q.1 + q.2 ∧ p.1 < q.1))
      (termExponents D) := by
  induction D with
  | zero =>
    have h0 : termExponents 0 = [(0, 0)] := rfl
    rw [h0]
    exact List.pairwise_singleton _ _
  | succ D ih =>
    rw [termExponents_succ, List.pairwise_append]
    refine ⟨ih, ?_, ?_⟩
    · rw [List.pairwise_iff_getElem]
      intro i j hi hj hij
      simp only [List.length_map, List.length_range] at hi hj
      simp only [List.getElem_map, List.getElem_range]
      omega
    · intro a ha b hb
      have hA := (mem_termExponents D a).mp ha
      simp only [List.mem_map, List.mem_range] at hb
      obtain ⟨i, hi, rfl⟩ := hb
      left
      simp only []
      omega

theorem length_termExponents_two (D : ℕ) :
    2 * (termExponents D).length = (D + 1) * (D + 2) := by
  induction D with
  | zero => rfl
  | succ D ih =>
    rw [termExponents_succ, List.length_append, List.length_map, List.length_range,
      Nat.mul_add, ih]
    ring

theorem length_termExponents (D : ℕ) : (termExponents D).length = numCoeffs D := by
  have h := length_termExponents_two D
  rw [numCoeffs, ← h, Nat.mul_div_cancel_left _ (by norm_num)]

theorem fitDataDesignRow_eq (x y : ℝ) (D : ℕ) :
    fitDataDesignRow x y D = featuresRow x y D := by
  simp only [fitDataDesignRow, featuresRow, termExponents, List.map_flatMap, List.map_map]
  rfl

/-- C1 counterexample: at degree 1 the code's enumeration order is
`1, y, x` (increasing power of the first input dimension within the
degree-1 block), while the claimed order is `1, x, y` (decreasing power
of the first input dimension); the two orders differ. -/
theorem term_order_counterexample :
    termExponents 1 = [(0, 0), (0, 1), (1, 0)]
    ∧ termExponentsSpecOrder 1 = [(0, 0), (1, 0), (0, 1)]
    ∧ termExponents 1 ≠ termExponentsSpecOrder 1 := by
  refine ⟨rfl, rfl, ?_⟩
  decide

/-- C1 amended: the basis enumerates every monomial of total degree at
most `degree` exactly once, ordered by increasing total degree and then
by increasing (not decreasing) power of the first input dimension, with
`(degree+1)(degree+2)/2 = num_coeffs` terms; `fit_polynomial_from_data`
builds its design-matrix rows in this same order (and
`_fit_exit_pupil` / `_evaluate_polynomial` both call the shared
`buildPolynomialFeatures`). -/
theorem term_order_amended (degree : ℕ) :
    List.Pairwise
      (fun p q : ℕ × ℕ => p.1 + p.2 < q.1 + q.2 ∨ (p.1 + p.2 = q.1 + q.2 ∧ p.1 < q.1))
      (termExponents degree)
    ∧ (∀ p : ℕ × ℕ, p ∈ termExponents degree ↔ p.1 + p.2 ≤ degree)
    ∧ (termExponents degree).length = numCoeffs degree
    ∧ ∀ x y : ℝ, fitDataDesignRow x y degree = featuresRow x y degree :=
  ⟨pairwise_termExponents degree, mem_termExponents degree, length_termExponents degree,
    fun x y => fitDataDesignRow_eq x y degree⟩

/-- C3 counterexample: with degree 1 and zero valid samples — far below
the `2 * num_coeffs = 6` margin — `fit` still returns a coefficient
dictionary (`.ok`, never a failure); only the warning flag is set. -/
theorem fit_low_samples_counterexample :
    (fitFromTrace lstsqZero 1 [] [] []).isOk = true
    ∧ (fitFromTrace lstsqZero 1 [] [] []).toOption.map FitResult.numValid = some 0
    ∧ (fitFromTrace lstsqZero 1 [] [] []).toOption.map FitResult.lowSampleWarning = some true
    ∧ 0 < numCoeffs 1 * 2 := by
  refine ⟨rfl, rfl, rfl, by norm_num [numCoeffs]⟩

/-- C3 amended: `fit` never fails fast on low sample counts; for every
input it returns `.ok` with coefficients, and the warning condition
`num_valid < num_coeffs * 2` (which in the source only prints) is
recorded in the warning flag. -/
theorem fit_low_samples_amended (lstsq : List (List ℝ) → List ℝ → List ℝ) (degree : ℕ)
    (sensorPos aperturePos : List (ℝ × ℝ)) (traced : List (Option (Vec3 × Vec3))) :
    ∃ r : FitResult,
      fitFromTrace lstsq degree sensorPos aperturePos traced = .ok r
      ∧ (r.lowSampleWarning = true ↔ r.numValid < numCoeffs degree * 2) := by
  refine ⟨_, rfl, ?_⟩
  simp

theorem buildFeatures_concatCols (degree : ℕ) :
    ∀ (sensor ap : List (ℝ × ℝ)), ap.length = sensor.length →
      buildPolynomialFeatures (concatCols sensor ap) degree
        = sensor.map fun p => featuresRow p.1 p.2 degree := by
  intro sensor
  induction sensor with
  | nil =>
    intro ap h
    rw [List.length_nil, List.length_eq_zero] at h
    subst h
    rfl
  | cons s rest ih =>
    intro ap h
    cases ap with
    | nil => simp at h
    | cons a arest =>
      have h' : arest.length = rest.length := by simpa using h
      show featuresRow s.1 s.2 degree :: buildPolynomialFeatures (concatCols rest arest) degree
          = featuresRow s.1 s.2 degree :: rest.map fun p => featuresRow p.1 p.2 degree
      rw [ih arest h']

/-- C10: the feature builder reads only the sensor columns of its
4-column input, so two aperture-sample populations of the right length
that agree on sensor coordinates give identical feature matrices,
identical fitted exit-pupil coefficients (for any least-squares solver
and any fixed traced outputs), and identical evaluated polynomial
outputs. -/
theorem fit_ignores_aperture (degree : ℕ) (lstsq : List (List ℝ) → List ℝ → List ℝ)
    (sensor ap1 ap2 : List (ℝ × ℝ)) (exitPos : List Vec3) (coeffsX coeffsY : List ℝ)
    (h1 : ap1.length = sensor.length) (h2 : ap2.length = sensor.length) :
    buildPolynomialFeatures (concatCols sensor ap1) degree
        = buildPolynomialFeatures (concatCols sensor ap2) degree
    ∧ fitExitPupil lstsq degree sensor ap1 exitPos
        = fitExitPupil lstsq degree sensor ap2 exitPos
    ∧ evaluatePolynomial degree sensor ap1 coeffsX coeffsY
        = evaluatePolynomial degree sensor ap2 coeffsX coeffsY := by
  have key := (buildFeatures_concatCols degree sensor ap1 h1).trans
    (buildFeatures_concatCols degree sensor ap2 h2).symm
  refine ⟨key, ?_, ?_⟩
  · simp only [fitExitPupil]
    rw [key]
  · simp only [evaluatePolynomial]
    rw [key]

/-- Witness for `fit_ignores_aperture`: one sensor sample `(3,4)` paired
with aperture sample `(0,0)` versus `(1,2)` gives the same fit. -/
theorem fit_ignores_aperture_witness :
    (([((0 : ℝ), (0 : ℝ))] : List (ℝ × ℝ)).length
        = ([((3 : ℝ), (4 : ℝ))] : List (ℝ × ℝ)).length
      ∧ ([((1 : ℝ), (2 : ℝ))] : List (ℝ × ℝ)).length
        = ([((3 : ℝ), (4 : ℝ))] : List (ℝ × ℝ)).length)
    ∧ fitExitPupil lstsqZero 2 [(3, 4)] [(0, 0)] []
        = fitExitPupil lstsqZero 2 [(3, 4)] [(1, 2)] [] :=
  ⟨⟨rfl, rfl⟩,
    (fit_ignores_aperture 2 lstsqZero [(3, 4)] [(0, 0)] [(1, 2)] [] [] [] rfl rfl).2.1⟩

/-- C8 counterexample: two calls of `_generate_sample_points` with the
identical argument (`num_samples = 1`) but different hidden global-RNG
states produce different aperture-plane sample populations — the
function is not a pure function of its arguments. -/
theorem sample_points_counterexample :
    (generateSamplePoints 1 rngZero).1.2 = [((0 : ℝ), (0 : ℝ))]
    ∧ (generateSamplePoints 1 rngQuarter).1.2 = [((1 / 2 : ℝ), (0 : ℝ))]
    ∧ (generateSamplePoints 1 rngZero).1.2 ≠ (generateSamplePoints 1 rngQuarter).1.2 := by
  have hq : Real.sqrt 4⁻¹ = 2⁻¹ := by
    rw [show (4 : ℝ)⁻¹ = (2⁻¹ : ℝ) ^ 2 by norm_num, Real.sqrt_sq (by norm_num)]
  have hA : (generateSamplePoints 1 rngZero).1.2 = [((0 : ℝ), (0 : ℝ))] := by
    simp [generateSamplePoints, linspace, npRand, rngZero, Nat.sqrt_one, List.range_succ,
      Real.sqrt_zero]
  have hB : (generateSamplePoints 1 rngQuarter).1.2 = [((1 / 2 : ℝ), (0 : ℝ))] := by
    simp [generateSamplePoints, linspace, npRand, rngQuarter, Nat.sqrt_one, List.range_succ,
      hq, Real.cos_zero, Real.sin_zero, Function.comp]
  refine ⟨hA, hB, ?_⟩
  rw [hA, hB]
  simp only [ne_eq, List.cons.injEq, Prod.mk.injEq, and_true, true_and]
  norm_num

/-- C8 amended: the sensor-plane population is a pure function of the
count alone; the aperture-plane population additionally depends on the
hidden global RNG state (see the counterexample). -/
theorem sample_points_amended (numSamples : ℕ) (g1 g2 : RngState) :
    (generateSamplePoints numSamples g1).1.1 = (generateSamplePoints numSamples g2).1.1 := rfl

theorem sqrt_sixteen : Real.sqrt 16 = 4 := by
  rw [show (16 : ℝ) = 4 ^ 2 by norm_num, Real.sqrt_sq (by norm_num)]

theorem sqrt_nine : Real.sqrt 9 = 3 := by
  rw [show (9 : ℝ) = 3 ^ 2 by norm_num, Real.sqrt_sq (by norm_num)]

theorem sqrt_ten_thousand : Real.sqrt 10000 = 100 := by
  rw [show (10000 : ℝ) = 100 ^ 2 by norm_num, Real.sqrt_sq (by norm_num)]

/-- With equal indices on both sides (`eta = 1`) refraction leaves a
unit-length incident direction unchanged, for any surface normal. -/
theorem refract_same_index (incident normal : Vec3) (n : ℝ) (hn : n ≠ 0)
    (hI : norm3 incident = 1) :
    refract incident normal n n = some incident := by
  simp only [refract]
  rw [div_self hn]
  set c := -(dot3 incident normal) with hc
  have hcos : (0 : ℝ) ≤ if c < 0 then -c else c := by
    split_ifs with h
    · linarith
    · exact not_lt.mp h
  rw [show (1 : ℝ) - 1 ^ 2 * (1 - (if c < 0 then -c else c) ^ 2)
      = (if c < 0 then -c else c) ^ 2 from by ring]
  rw [if_neg (not_lt.mpr (sq_nonneg _)), Real.sqrt_sq hcos]
  rw [show (1 : ℝ) * (if c < 0 then -c else c) - (if c < 0 then -c else c) = 0 from by ring]
  have hone : (1 : ℝ) • incident + (0 : ℝ) • (if c < 0 then -normal else normal) = incident := by
    cases incident with
    | mk ix iy iz =>
      split_ifs <;> simp [Vec3.add_def, Vec3.smul_def]
  rw [hone, normalize_of_norm_one _ hI]

/-- C6: for a unit incident direction and unit normal, `_refract` fails
(returns `None`, reported as total internal reflection by the trace)
exactly when `k = 1 - (n1/n2)^2 (1 - cos^2 theta_i) < 0`, where
`cos theta_i = -dot(incident, normal)`; when `k >= 0` it returns a
refracted direction. -/
theorem refract_tir_iff (incident normal : Vec3) (n1 n2 : ℝ)
    (hI : norm3 incident = 1) (hN : norm3 normal = 1) :
    (refract incident normal n1 n2 = none ↔
      1 - (n1 / n2) ^ 2 * (1 - dot3 incident normal ^ 2) < 0)
    ∧ (0 ≤ 1 - (n1 / n2) ^ 2 * (1 - dot3 incident normal ^ 2) →
        ∃ d, refract incident normal n1 n2 = some d) := by
  have hk : (1 : ℝ) - (n1 / n2) ^ 2 *
        (1 - (if -dot3 incident normal < 0 then -(-dot3 incident normal)
              else -dot3 incident normal) ^ 2)
      = 1 - (n1 / n2) ^ 2 * (1 - dot3 incident normal ^ 2) := by
    split_ifs <;> ring
  constructor
  · simp only [refract]
    rw [hk]
    by_cases h : 1 - (n1 / n2) ^ 2 * (1 - dot3 incident normal ^ 2) < 0
    · rw [if_pos h]
      simp [h]
    · rw [if_neg h]
      simp [h]
  · intro h
    simp only [refract]
    rw [hk, if_neg (not_lt.mpr h)]
    exact ⟨_, rfl⟩

/-- Witness for `refract_tir_iff`: the unit incident direction
`(3/5, 0, 4/5)` against the unit normal `(0, 0, 1)` with `n1 = 3/2`,
`n2 = 1`. -/
theorem refract_tir_iff_witness :
    norm3 ⟨3 / 5, 0, 4 / 5⟩ = 1 ∧ norm3 ⟨0, 0, 1⟩ = 1
    ∧ ((refract ⟨3 / 5, 0, 4 / 5⟩ ⟨0, 0, 1⟩ (3 / 2) 1 = none ↔
          1 - ((3 / 2 : ℝ) / 1) ^ 2
              * (1 - dot3 ⟨3 / 5, 0, 4 / 5⟩ ⟨0, 0, 1⟩ ^ 2) < 0)
        ∧ (0 ≤ 1 - ((3 / 2 : ℝ) / 1) ^ 2
              * (1 - dot3 ⟨3 / 5, 0, 4 / 5⟩ ⟨0, 0, 1⟩ ^ 2) →
            ∃ d, refract ⟨3 / 5, 0, 4 / 5⟩ ⟨0, 0, 1⟩ (3 / 2) 1 = some d)) :=
  ⟨norm3_dir345, norm3_unit_z, refract_tir_iff _ _ _ _ norm3_dir345 norm3_unit_z⟩

theorem traceStep_parallel :
    traceStep flatElem 550 ⟨⟨0, 0, 0⟩, ⟨1, 0, 0⟩, 1, 0⟩ = .error .parallelToAxis := by
  rw [traceStep, if_pos]
  norm_num

theorem traceTag_parallel :
    traceRayTagged [flatElem] ⟨0, 0, 0⟩ ⟨1, 0, 0⟩ 550 = .error .parallelToAxis := by
  rw [traceRayTagged, normalize_of_norm_one _ norm3_unit_x]
  simp [traceRayAux, traceStep_parallel]

theorem traceStep_vignetted_flat :
    traceStep flatElem 550 ⟨⟨100, 0, 0⟩, ⟨0, 0, 1⟩, 1, 0⟩ = .error .vignetted := by
  norm_num [traceStep, flatElem, Vec3.add_def, Vec3.smul_def, sqrt_ten_thousand]

theorem traceTag_vignetted :
    traceRayTagged [flatElem] ⟨100, 0, 0⟩ ⟨0, 0, 1⟩ 550 = .error .vignetted := by
  rw [traceRayTagged, normalize_of_norm_one _ norm3_unit_z]
  simp [traceRayAux, traceStep_vignetted_flat]

/-- C2 counterexample: a ray parallel to the optical axis plane and a
vignetted ray fail for different reasons (different tagged failure
sites), yet `trace_ray` reports the identical result value `(None, None)`
for both — the per-ray result carries no reason code distinguishing the
failure kinds. -/
theorem trace_failure_reason_counterexample :
    traceRayTagged [flatElem] ⟨0, 0, 0⟩ ⟨1, 0, 0⟩ 550 = .error .parallelToAxis
    ∧ traceRayTagged [flatElem] ⟨100, 0, 0⟩ ⟨0, 0, 1⟩ 550 = .error .vignetted
    ∧ TraceFailure.parallelToAxis ≠ TraceFailure.vignetted
    ∧ traceRay [flatElem] ⟨0, 0, 0⟩ ⟨1, 0, 0⟩ 550
        = traceRay [flatElem] ⟨100, 0, 0⟩ ⟨0, 0, 1⟩ 550 := by
  refine ⟨traceTag_parallel, traceTag_vignetted, by decide, ?_⟩
  rw [traceRay, traceRay, traceTag_parallel, traceTag_vignetted]
  rfl

/-- C2 amended: trace failures are reported per ray via the result value
and never by an exception (the model is a total function); every failure
kind produces the same observable result `none` — a bare success flag
with no reason code. -/
theorem trace_failure_amended (elements : List LensElement) (origin dir : Vec3)
    (wavelength : ℝ) (f : TraceFailure)
    (h : traceRayTagged elements origin dir wavelength = .error f) :
    traceRay elements origin dir wavelength = none := by
  rw [traceRay, h]
  rfl

/-- Witness for `trace_failure_amended`: the concrete axis-parallel ray. -/
theorem trace_failure_amended_witness :
    traceRayTagged [flatElem] ⟨0, 0, 0⟩ ⟨1, 0, 0⟩ 550 = .error .parallelToAxis
    ∧ traceRay [flatElem] ⟨0, 0, 0⟩ ⟨1, 0, 0⟩ 550 = none :=
  ⟨traceTag_parallel, trace_failure_amended _ _ _ _ _ traceTag_parallel⟩

/-- C5 amended: given that the parallel-to-axis and surface-behind-ray
guards pass, `trace_ray` rejects the ray at a surface as vignetted
exactly when the radial distance from the optical axis *at the surface's
vertex plane* (flat propagation, line 138 of the source) exceeds the
clear-aperture radius `diameter/2`; in particular a ray whose
vertex-plane radial distance is 1% beyond that radius is always flagged
vignetted, never clipped.  The check is not repeated at the
sag-corrected curved-surface intersection (see the counterexample). -/
theorem vignette_amended (element : LensElement) (wavelength : ℝ) (s : TraceState)
    (hdz : ¬ |s.dir.z| < 1e-10)
    (hbehind : ¬ (s.zVertex - s.pos.z) / s.dir.z < -1e-6) :
    (traceStep element wavelength s = .error .vignetted ↔
      element.diameter / 2
        < Real.sqrt ((s.pos + ((s.zVertex - s.pos.z) / s.dir.z) • s.dir).x ^ 2
            + (s.pos + ((s.zVertex - s.pos.z) / s.dir.z) • s.dir).y ^ 2))
    ∧ (0 < element.diameter →
        Real.sqrt ((s.pos + ((s.zVertex - s.pos.z) / s.dir.z) • s.dir).x ^ 2
            + (s.pos + ((s.zVertex - s.pos.z) / s.dir.z) • s.dir).y ^ 2)
          = 1.01 * (element.diameter / 2) →
        traceStep element wavelength s = .error .vignetted) := by
  have main : traceStep element wavelength s = .error .vignetted ↔
      element.diameter / 2
        < Real.sqrt ((s.pos + ((s.zVertex - s.pos.z) / s.dir.z) • s.dir).x ^ 2
            + (s.pos + ((s.zVertex - s.pos.z) / s.dir.z) • s.dir).y ^ 2) := by
    simp only [traceStep]
    rw [if_neg hdz, if_neg hbehind]
    by_cases h : element.diameter / 2
        < Real.sqrt ((s.pos + ((s.zVertex - s.pos.z) / s.dir.z) • s.dir).x ^ 2
            + (s.pos + ((s.zVertex - s.pos.z) / s.dir.z) • s.dir).y ^ 2)
    · rw [if_pos h]
      exact iff_of_true rfl h
    · rw [if_neg h]
      refine iff_of_false (fun hcon => ?_) h
      repeat' split at hcon
      all_goals simp at hcon
  refine ⟨main, fun hd hr => main.mpr ?_⟩
  rw [hr]
  linarith

/-- Witness for `vignette_amended`: the concrete ray reaching the flat
50mm-aperture surface 100mm off axis is flagged vignetted. -/
theorem vignette_amended_witness :
    (¬ |(⟨⟨100, 0, 0⟩, ⟨0, 0, 1⟩, 1, 0⟩ : TraceState).dir.z| < 1e-10)
    ∧ (¬ ((⟨⟨100, 0, 0⟩, ⟨0, 0, 1⟩, 1, 0⟩ : TraceState).zVertex
          - (⟨⟨100, 0, 0⟩, ⟨0, 0, 1⟩, 1, 0⟩ : TraceState).pos.z)
          / (⟨⟨100, 0, 0⟩, ⟨0, 0, 1⟩, 1, 0⟩ : TraceState).dir.z < -1e-6)
    ∧ traceStep flatElem 550 ⟨⟨100, 0, 0⟩, ⟨0, 0, 1⟩, 1, 0⟩ = .error .vignetted := by
  have hdz : ¬ |(⟨⟨100, 0, 0⟩, ⟨0, 0, 1⟩, 1, 0⟩ : TraceState).dir.z| < 1e-10 := by
    norm_num
  have hbe : ¬ ((⟨⟨100, 0, 0⟩, ⟨0, 0, 1⟩, 1, 0⟩ : TraceState).zVertex
      - (⟨⟨100, 0, 0⟩, ⟨0, 0, 1⟩, 1, 0⟩ : TraceState).pos.z)
      / (⟨⟨100, 0, 0⟩, ⟨0, 0, 1⟩, 1, 0⟩ : TraceState).dir.z < -1e-6 := by
    norm_num
  refine ⟨hdz, hbe, ?_⟩
  refine (vignette_amended flatElem 550 _ hdz hbe).1.mpr ?_
  norm_num [flatElem, Vec3.add_def, Vec3.smul_def, sqrt_ten_thousand]

theorem curved_trace_step :
    traceStep curvedElem 550 ⟨⟨4, 0, 0⟩, ⟨3 / 5, 0, 4 / 5⟩, 1, 0⟩
      = .ok ⟨⟨11 / 2, 0, 2⟩, ⟨3 / 5, 0, 4 / 5⟩, 1, 10⟩ := by
  have hrefr : ∀ N : Vec3, refract ⟨3 / 5, 0, 4 / 5⟩ N 1 1 = some ⟨3 / 5, 0, 4 / 5⟩ :=
    fun N => refract_same_index _ N 1 one_ne_zero norm3_dir345
  have hL : (1e-10 : ℝ) < Real.sqrt (137 / 4) := by
    have h1 : Real.sqrt 1 ≤ Real.sqrt (137 / 4) := Real.sqrt_le_sqrt (by norm_num)
    rw [Real.sqrt_one] at h1
    calc (1e-10 : ℝ) < 1 := by norm_num
      _ ≤ Real.sqrt (137 / 4) := h1
  have habs1 : |(4 / 5 : ℝ)| = 4 / 5 := abs_of_pos (by norm_num)
  have habs2 : |(5 : ℝ)| = 5 := abs_of_pos (by norm_num)
  norm_num [traceStep, curvedElem, Vec3.add_def, Vec3.smul_def, getIndex, indexMap,
    norm3, dot3, sqrt_sixteen, sqrt_nine, hrefr, hL, habs1, habs2]

/-- C5 counterexample: a tilted ray through the curved 8.2mm-aperture
surface passes the vignette check (made at the vertex plane, radial
distance 4 < 4.1) and is traced successfully to the surface intersection
`(11/2, 0, 2)`, whose radial distance `11/2 = 5.5` exceeds the
clear-aperture radius `4.1` — so the trace does *not* reject exactly the
rays whose radial distance at the surface intersection exceeds the
aperture radius. -/
theorem vignette_counterexample :
    traceRay [curvedElem] ⟨4, 0, 0⟩ ⟨3 / 5, 0, 4 / 5⟩ 550
        = some (⟨11 / 2, 0, 2⟩, ⟨3 / 5, 0, 4 / 5⟩)
    ∧ curvedElem.diameter / 2 < Real.sqrt ((11 / 2 : ℝ) ^ 2 + (0 : ℝ) ^ 2) := by
  constructor
  · rw [traceRay, traceRayTagged, normalize_of_norm_one _ norm3_dir345]
    simp [traceRayAux, curved_trace_step, Except.toOption]
  · have hs : Real.sqrt ((11 / 2 : ℝ) ^ 2 + (0 : ℝ) ^ 2) = 11 / 2 := by
      rw [show ((11 / 2 : ℝ) ^ 2 + (0 : ℝ) ^ 2) = (11 / 2 : ℝ) ^ 2 by norm_num,
        Real.sqrt_sq (by norm_num)]
    rw [hs]
    norm_num [curvedElem]

theorem degreesList_nil (a maxDegree : ℕ) (h : maxDegree + 1 - a = 0) :
    degreesList a maxDegree = [] := by
  rw [degreesList, h]
  rfl

theorem degreesList_cons (a maxDegree : ℕ) (h : a ≤ maxDegree) :
    degreesList a maxDegree = a :: degreesList (a + 1) maxDegree := by
  rw [degreesList, degreesList]
  have h1 : maxDegree + 1 - a = (maxDegree + 1 - (a + 1)) + 1 := by omega
  rw [h1, List.range_succ_eq_map]
  simp only [List.map_cons, zero_add, List.map_map]
  have h2 : ((· + a) ∘ Nat.succ) = (· + (a + 1)) := by
    funext k
    simp only [Function.comp_apply, Nat.succ_eq_add_one]
    omega
  rw [h2]

theorem optimizeDegreeLoop_spec (err : ℕ → ℚ) (target : ℚ) (maxDegree : ℕ) :
    ∀ n a bd be, maxDegree + 1 - a = n →
      (maxDegree < a ∧
        optimizeDegreeLoop err target (degreesList a maxDegree) (bd, some be)
          = (bd, some be))
      ∨ (∃ stop bd' be',
          a ≤ stop ∧ stop ≤ maxDegree
          ∧ (∀ d, a ≤ d → d < stop → target < err d)
          ∧ (err stop ≤ target ∨ stop = maxDegree)
          ∧ optimizeDegreeLoop err target (degreesList a maxDegree) (bd, some be)
              = (bd', some be')
          ∧ be' ≤ be
          ∧ (∀ d, a ≤ d → d ≤ stop → be' ≤ err d)
          ∧ ((bd' = bd ∧ be' = be) ∨ (a ≤ bd' ∧ bd' ≤ stop ∧ be' = err bd'))) := by
  intro n
  induction n with
  | zero =>
    intro a bd be hn
    left
    refine ⟨by omega, ?_⟩
    rw [degreesList_nil a maxDegree hn]
    rfl
  | succ n ih =>
    intro a bd be hn
    have ha : a ≤ maxDegree := by omega
    right
    rw [degreesList_cons a maxDegree ha]
    simp only [optimizeDegreeLoop]
    by_cases htar : err a ≤ target
    · rw [if_pos htar]
      by_cases himp : err a < be
      · rw [if_pos himp]
        refine ⟨a, a, err a, le_refl a, ha, ?_, Or.inl htar, rfl, le_of_lt himp, ?_,
          Or.inr ⟨le_refl a, le_refl a, rfl⟩⟩
        · intro d h1 h2
          omega
        · intro d h1 h2
          have hd : d = a := by omega
          rw [hd]
      · rw [if_neg himp]
        refine ⟨a, bd, be, le_refl a, ha, ?_, Or.inl htar, rfl, le_refl be, ?_,
          Or.inl ⟨rfl, rfl⟩⟩
        · intro d h1 h2
          omega
        · intro d h1 h2
          have hd : d = a := by omega
          rw [hd]
          exact not_lt.mp himp
    · rw [if_neg htar]
      by_cases himp : err a < be
      · rw [if_pos himp]
        rcases ih (a + 1) a (err a) (by omega) with ⟨hlt, heq⟩ |
          ⟨stop, bd', be', h1, h2, h3, h4, h5, h6, h7, h8⟩
        · refine ⟨a, a, err a, le_refl a, ha, ?_, Or.inr (by omega), heq,
            le_of_lt himp, ?_, Or.inr ⟨le_refl a, le_refl a, rfl⟩⟩
          · intro d h1 h2
            omega
          · intro d h1 h2
            have hd : d = a := by omega
            rw [hd]
        · refine ⟨stop, bd', be', by omega, h2, ?_, h4, h5,
            le_trans h6 (le_of_lt himp), ?_, ?_⟩
          · intro d hd1 hd2
            by_cases hda : d = a
            · rw [hda]
              exact not_le.mp htar
            · exact h3 d (by omega) hd2
          · intro d hd1 hd2
            by_cases hda : d = a
            · rw [hda]
              exact h6
            · exact h7 d (by omega) hd2
          · rcases h8 with ⟨hb1, hb2⟩ | ⟨hb1, hb2, hb3⟩
            · refine Or.inr ⟨?_, ?_, ?_⟩
              · rw [hb1]
              · rw [hb1]
                omega
              · rw [hb1, hb2]
            · exact Or.inr ⟨by omega, hb2, hb3⟩
      · rw [if_neg himp]
        have hbea : be ≤ err a := not_lt.mp himp
        rcases ih (a + 1) bd be (by omega) with ⟨hlt, heq⟩ |
          ⟨stop, bd', be', h1, h2, h3, h4, h5, h6, h7, h8⟩
        · refine ⟨a, bd, be, le_refl a, ha, ?_, Or.inr (by omega), heq, le_refl be, ?_,
            Or.inl ⟨rfl, rfl⟩⟩
          · intro d h1 h2
            omega
          · intro d h1 h2
            have hd : d = a := by omega
            rw [hd]
            exact hbea
        · refine ⟨stop, bd', be', by omega, h2, ?_, h4, h5, h6, ?_, ?_⟩
          · intro d hd1 hd2
            by_cases hda : d = a
            · rw [hda]
              exact not_le.mp htar
            · exact h3 d (by omega) hd2
          · intro d hd1 hd2
            by_cases hda : d = a
            · rw [hda]
              exact le_trans h6 hbea
            · exact h7 d (by omega) hd2
          · rcases h8 with hL | ⟨hb1, hb2, hb3⟩
            · exact Or.inl hL
            · exact Or.inr ⟨by omega, hb2, hb3⟩

/-- C4 counterexample: with a constant validation error of 2 over the
single-degree range [5,5], a run whose target (2) is met and a run whose
target (1) is not met return the *identical* bare pair `(5, 2)` — the
return value carries no explicit achieved/not-achieved status, so a
target-missing outcome is not visibly different from success. -/
theorem optimize_degree_counterexample :
    optimizeDegree (fun _ => (2 : ℚ)) 5 5 2 = (5, some 2)
    ∧ optimizeDegree (fun _ => (2 : ℚ)) 5 5 1 = (5, some 2)
    ∧ ((2 : ℚ) ≤ 2) ∧ ¬((2 : ℚ) ≤ 1) := by
  refine ⟨?_, ?_, by norm_num, by norm_num⟩
  · rw [optimizeDegree, degreesList_cons 5 5 (le_refl 5), degreesList_nil 6 5 rfl]
    norm_num [optimizeDegreeLoop]
  · rw [optimizeDegree, degreesList_cons 5 5 (le_refl 5), degreesList_nil 6 5 rfl]
    norm_num [optimizeDegreeLoop]

/-- C4 amended: `optimize_degree` iterates the degree upward from the
minimum, stops at the first degree `stop` whose error meets the target
(or exhausts the range, `stop = maxDegree`), and returns the best-found
(degree, error) pair over the scanned prefix `[minDegree, stop]` — as a
bare pair, with no explicit "target not achieved" status distinguishing
the exhausted case from success (see the counterexample). -/
theorem optimize_degree_amended (err : ℕ → ℚ) (minDegree maxDegree : ℕ) (target : ℚ)
    (h : minDegree ≤ maxDegree) :
    ∃ stop, minDegree ≤ stop ∧ stop ≤ maxDegree
      ∧ (∀ d, minDegree ≤ d → d < stop → target < err d)
      ∧ (err stop ≤ target ∨ stop = maxDegree)
      ∧ minDegree ≤ (optimizeDegree err minDegree maxDegree target).1
      ∧ (optimizeDegree err minDegree maxDegree target).1 ≤ stop
      ∧ (optimizeDegree err minDegree maxDegree target).2
          = some (err (optimizeDegree err minDegree maxDegree target).1)
      ∧ ∀ d, minDegree ≤ d → d ≤ stop →
          err (optimizeDegree err minDegree maxDegree target).1 ≤ err d := by
  rw [optimizeDegree, degreesList_cons minDegree maxDegree h]
  simp only [optimizeDegreeLoop]
  by_cases htar : err minDegree ≤ target
  · rw [if_pos htar]
    refine ⟨minDegree, le_refl _, h, ?_, Or.inl htar, le_refl _, le_refl _, rfl, ?_⟩
    · intro d h1 h2
      omega
    · intro d h1 h2
      have hd : d = minDegree := by omega
      rw [hd]
  · rw [if_neg htar]
    rcases optimizeDegreeLoop_spec err target maxDegree (maxDegree + 1 - (minDegree + 1))
        (minDegree + 1) minDegree (err minDegree) rfl with ⟨hlt, heq⟩ |
      ⟨stop, bd', be', h1, h2, h3, h4, h5, h6, h7, h8⟩
    · rw [heq]
      have heqd : minDegree = maxDegree := by omega
      refine ⟨maxDegree, h, le_refl _, ?_, Or.inr rfl, le_refl _, h, rfl, ?_⟩
      · intro d h1 h2
        omega
      · intro d h1 h2
        have hd : d = minDegree := by omega
        rw [hd]
    · rw [h5]
      refine ⟨stop, by omega, h2, ?_, h4, ?_, ?_, ?_, ?_⟩
      · intro d hd1 hd2
        by_cases hda : d = minDegree
        · rw [hda]
          exact not_le.mp htar
        · exact h3 d (by omega) hd2
      · show minDegree ≤ bd'
        rcases h8 with ⟨hb1, _⟩ | ⟨hb1, _, _⟩
        · rw [hb1]
        · omega
      · show bd' ≤ stop
        rcases h8 with ⟨hb1, _⟩ | ⟨_, hb2, _⟩
        · rw [hb1]
          omega
        · exact hb2
      · show some be' = some (err bd')
        rcases h8 with ⟨hb1, hb2⟩ | ⟨_, _, hb3⟩
        · rw [hb1, hb2]
        · rw [hb3]
      · intro d hd1 hd2
        have hkey : err bd' = be' := by
          rcases h8 with ⟨hb1, hb2⟩ | ⟨_, _, hb3⟩
          · rw [hb1, hb2]
          · rw [hb3]
        show err bd' ≤ err d
        rw [hkey]
        by_cases hda : d = minDegree
        · rw [hda]
          exact h6
        · exact h7 d (by omega) hd2

/-- Witness for `optimize_degree_amended`: the strictly decreasing error
profile `err d = 10 - d` over degrees 5..7 with target 4 (met at degree
6). -/
theorem optimize_degree_amended_witness :
    (5 : ℕ) ≤ 7
    ∧ ∃ stop : ℕ, 5 ≤ stop ∧ stop ≤ 7
      ∧ (∀ d : ℕ, 5 ≤ d → d < stop → (4 : ℚ) < (10 : ℚ) - (d : ℚ))
      ∧ ((10 : ℚ) - (stop : ℚ) ≤ 4 ∨ stop = 7)
      ∧ 5 ≤ (optimizeDegree (fun d => (10 : ℚ) - (d : ℚ)) 5 7 4).1
      ∧ (optimizeDegree (fun d => (10 : ℚ) - (d : ℚ)) 5 7 4).1 ≤ stop
      ∧ (optimizeDegree (fun d => (10 : ℚ) - (d : ℚ)) 5 7 4).2
          = some ((10 : ℚ) - ((optimizeDegree (fun d => (10 : ℚ) - (d : ℚ)) 5 7 4).1 : ℚ))
      ∧ ∀ d : ℕ, 5 ≤ d → d ≤ stop →
          (10 : ℚ) - ((optimizeDegree (fun d => (10 : ℚ) - (d : ℚ)) 5 7 4).1 : ℚ)
            ≤ (10 : ℚ) - (d : ℚ) :=
  ⟨by norm_num, optimize_degree_amended (fun d => (10 : ℚ) - (d : ℚ)) 5 7 4 (by norm_num)⟩
